import Mathlib

/-!
# A verification development for `main.c` ("Simplest ls program")

The C program lists one directory, either as a single line of names or, with
`-l`, as one line of metadata per entry.  This file embeds the parts of
`src/main.c` that decide what is written to standard output and proves
properties of them.

Conventions of the embedding

* A C string is the list of its characters up to, and not including, the
  terminating NUL.  A raw `char` buffer is a list that contains its NULs.
* The platform is the one the program is written for: glibc on LP64 Linux
  (`CHAR_BIT = 8`, `sizeof(int) = 4`, `sizeof(long) = 8`, `MAX_CANON = 255`,
  `_DIRENT_HAVE_D_TYPE` defined).  Constants of system headers carry the
  values of those headers.  On this platform the device identifier that
  `stat` puts in `st_rdev` encodes a major number of 12 bits and a minor
  number of 20 bits and is below `2 ^ 32`.
* Everything the operating system answers during one run (the entries that
  `readdir` returns and, for each entry, what `malloc`, `stat`, `getpwuid`,
  `getgrgid`, `localtime`/`strftime` and `realpath` answer) is an input of the
  model.
* Only standard output is modelled; diagnostics go to the error stream.
-/

namespace Ls

/-! ## Characters, C strings and the libc functions used -/

/-- The terminating character of C strings. -/
def NUL : Char := Char.ofNat 0

/-- The C string stored in a raw buffer: its characters up to the first NUL. -/
def cstr (buf : List Char) : List Char :=
  buf.takeWhile (fun c => c != NUL)

/-- Models `strlen` of a C string. -/
def strlen (s : List Char) : Nat := s.length

/-- Models `s[i]` of a C string, the terminating NUL included. -/
def char_at (s : List Char) (i : Nat) : Char := (s ++ [NUL]).getD i NUL

/-- Store `src` into the raw buffer `buf` from offset `off` on.  A store that
would leave the buffer has no defined result: `none`. -/
def store (buf : List Char) (off : Nat) (src : List Char) : Option (List Char) :=
  if off + src.length ≤ buf.length then
    some (buf.take off ++ src ++ buf.drop (off + src.length))
  else none

/-- Models `memcpy(dst + off, src, n)`. -/
def memcpy (dst : List Char) (off : Nat) (src : List Char) (n : Nat) : Option (List Char) :=
  store dst off (src.take n)

/-- Models `memset(dst + off, c, n)`. -/
def memset (dst : List Char) (off : Nat) (c : Char) (n : Nat) : Option (List Char) :=
  store dst off (List.replicate n c)

/-- Models `strcpy(dst + off, src)`: the characters of `src` and its NUL. -/
def strcpy (dst : List Char) (off : Nat) (src : List Char) : Option (List Char) :=
  store dst off (src ++ [NUL])

/-- Models `malloc(n)`: `junk` is what the heap answers, `none` for a failed
allocation and otherwise the indeterminate initial contents of the block. -/
def malloc (n : Nat) (junk : Option (Nat → Char)) : Option (List Char) :=
  junk.map (fun f => (List.range n).map f)

/-- Models `snprintf(buf, size, ...)` of a formatted `text`: at most `size - 1`
characters are stored before the NUL; the result is the C string left in the
buffer. -/
def snprintf (size : Nat) (text : List Char) : List Char :=
  text.take (size - 1)

/-- Models `strftime(buf, size, "%c", tsm)`, given the `text` that the
conversion `%c` produces for the time: the text is stored when it fits with
its NUL; when it does not, `strftime` returns 0 and glibc leaves the buffer
as it was.  The result is the C string in the buffer after the call. -/
def strftime (buf : List Char) (size : Nat) (text : List Char) : List Char :=
  if text.length < size then text else buf

/-- The `%d`/`%ld` conversion of a signed value. -/
def fmt_d (v : Int) : List Char :=
  if v < 0 then '-' :: Nat.toDigits 10 v.natAbs else Nat.toDigits 10 v.natAbs

/-- The value `printf` reads through `%d` when it is handed an
`unsigned int`: the same 32 bits taken as an `int`. -/
def as_int (u : Nat) : Int :=
  if u % 2 ^ 32 < 2 ^ 31 then ((u % 2 ^ 32 : Nat) : Int) else ((u % 2 ^ 32 : Nat) : Int) - 2 ^ 32

/-! ## Constants of the system headers -/

def CHAR_BIT : Nat := 8
def sizeof_int : Nat := 4
def sizeof_long : Nat := 8
def MAX_CANON : Nat := 255

def S_IFMT : Nat := 0o170000
def S_IFCHR : Nat := 0o020000
def S_IFBLK : Nat := 0o060000
def S_IFLNK : Nat := 0o120000
def S_IFREG : Nat := 0o100000

def S_IRUSR : Nat := 0o400
def S_IWUSR : Nat := 0o200
def S_IXUSR : Nat := 0o100
def S_IRGRP : Nat := 0o040
def S_IWGRP : Nat := 0o020
def S_IXGRP : Nat := 0o010
def S_IROTH : Nat := 0o004
def S_IWOTH : Nat := 0o002
def S_IXOTH : Nat := 0o001

def S_ISCHR (m : Nat) : Bool := m &&& S_IFMT == S_IFCHR
def S_ISBLK (m : Nat) : Bool := m &&& S_IFMT == S_IFBLK
def S_ISLNK (m : Nat) : Bool := m &&& S_IFMT == S_IFLNK

def DT_UNKNOWN : Nat := 0
def DT_FIFO : Nat := 1
def DT_CHR : Nat := 2
def DT_DIR : Nat := 4
def DT_BLK : Nat := 6
def DT_REG : Nat := 8
def DT_LNK : Nat := 10
def DT_SOCK : Nat := 12
def DT_WHT : Nat := 14

/-- Models `major(dev)` of `<sys/sysmacros.h>`. -/
def major (dev : Nat) : Nat :=
  ((dev >>> 32) &&& 0xfffff000) ||| ((dev >>> 8) &&& 0x00000fff)

/-- Models `minor(dev)` of `<sys/sysmacros.h>`. -/
def minor (dev : Nat) : Nat :=
  ((dev >>> 12) &&& 0xffffff00) ||| (dev &&& 0x000000ff)

/-- Models `makedev(major, minor)` of `<sys/sysmacros.h>`. -/
def makedev (ma mi : Nat) : Nat :=
  ((ma &&& 0x00000fff) <<< 8) ||| ((ma &&& 0xfffff000) <<< 32) |||
    (mi &&& 0x000000ff) ||| ((mi &&& 0xffffff00) <<< 12)

/-! ## `main.c`: buffer sizes -/

/-- Models `STR_BUFSIZE_BOUND(bits)`. -/
def STR_BUFSIZE_BOUND (bits : Nat) : Nat := (bits * 146 / 485) + 1

/-- Models `BUFSIZE_BOUND(BOUND)`, given `sizeof(BOUND)` and the value of `BOUND`. -/
def BUFSIZE_BOUND (sizeof_bound : Nat) (bound : Int) : Nat :=
  STR_BUFSIZE_BOUND (sizeof_bound * CHAR_BIT) + (if bound < 0 then 1 else 0)

def UINT_MAX : Int := 2 ^ 32 - 1
def LONG_MAX : Int := 2 ^ 63 - 1

def UINT_BUFSIZE_BOUND : Nat := BUFSIZE_BOUND sizeof_int UINT_MAX
def LONG_BUFSIZE_BOUND : Nat := BUFSIZE_BOUND sizeof_long LONG_MAX

def MAX_FILE_TIME : Nat := 25
def FILE_DESC_MAX : Nat := 10

/-- Models `sizeof(file_nlink)`. -/
def sizeof_file_nlink : Nat := UINT_BUFSIZE_BOUND
/-- Models `sizeof(file_owner)`. -/
def sizeof_file_owner : Nat := MAX_CANON
/-- Models `sizeof(file_group)`. -/
def sizeof_file_group : Nat := MAX_CANON
/-- Models `sizeof(file_size)`. -/
def sizeof_file_size : Nat := LONG_BUFSIZE_BOUND + 2
/-- Models `sizeof(file_time)`. -/
def sizeof_file_time : Nat := 25

/-! ## `main.c`: the entry filter and the path composition -/

/-- Models `FILE_IGNORED(name)`: `(name[0] == '.' ? 1 : 0)`. -/
def FILE_IGNORED (name : List Char) : Nat :=
  if char_at name 0 = '.' then 1 else 0

/-- Models `create_filename(path, name)`: the raw buffer returned, `none` for the
`NULL` result (and for a store outside the allocated block). -/
def create_filename (junk : Option (Nat → Char)) (path name : List Char) :
    Option (List Char) :=
  let size := strlen path + strlen name
  let size := if strlen path ≥ 1 ∧ char_at path (strlen path - 1) ≠ '/' then size + 1 else size
  match malloc (size + 1) junk with
  | none => none
  | some str =>
    (store str 0 [NUL]).bind fun str =>
    (memcpy str 0 path (strlen path)).bind fun str =>
    if strlen path ≥ 1 ∧ char_at path (strlen path - 1) ≠ '/' then
      (memset str (strlen path) '/' 1).bind fun str =>
      strcpy str (strlen path + 1) name
    else
      strcpy str (strlen path) name

/-! ## `main.c`: the file description of the long representation -/

/-- The fields of `struct stat` that the program reads. -/
structure Stat where
  st_mode : Nat
  st_nlink : Nat
  st_uid : Nat
  st_gid : Nat
  st_rdev : Nat
  st_size : Int
  st_atime : Int

/-- The global buffers of the file description.  `file_taccess` is the raw
buffer of `FILE_DESC_MAX + 1` characters; the others are the C strings they
hold. -/
structure Globals where
  file_taccess : List Char
  file_nlink : List Char
  file_owner : List Char
  file_group : List Char
  file_size : List Char
  file_time : List Char
  file_realpath : List Char

/-- The globals when `print_dir` is called: static storage is zeroed, and
`main` stores NUL in the last byte of `file_taccess` and in the first byte
of the other buffers. -/
def initial_globals : Globals :=
  { file_taccess := List.replicate (FILE_DESC_MAX + 1) NUL
    file_nlink := []
    file_owner := []
    file_group := []
    file_size := []
    file_time := []
    file_realpath := [] }

def FILE_TYPE : Nat := 0
def RUSR : Nat := 1
def WUSR : Nat := 2
def XUSR : Nat := 3
def RGRP : Nat := 4
def WGRP : Nat := 5
def XGRP : Nat := 6
def ROTH : Nat := 7
def WOTH : Nat := 8
def XOTH : Nat := 9

/-- Models `put_owner(uid)`, given what `getpwuid` answers: `errno` and the
`pw_name` of the record (`none` for `NULL`).  `none` is the return value 0. -/
def put_owner (g : Globals) (errno : Nat) (pw_name : Option (List Char)) : Option Globals :=
  if errno ≠ 0 then none
  else match pw_name with
    | some name => some { g with file_owner := snprintf sizeof_file_owner name }
    | none => none

/-- Models `put_group(gid)`, given what `getgrgid` answers.  `none` is the return
value 0. -/
def put_group (g : Globals) (errno : Nat) (gr_name : Option (List Char)) : Option Globals :=
  if errno ≠ 0 then none
  else match gr_name with
    | some name => some { g with file_group := snprintf sizeof_file_group name }
    | none => none

/-- Models `put_rights(mode)`. -/
def put_rights (g : Globals) (mode : Nat) : Globals :=
  let t := g.file_taccess
  let t := t.set RUSR (if mode &&& S_IRUSR ≠ 0 then 'r' else '-')
  let t := t.set WUSR (if mode &&& S_IWUSR ≠ 0 then 'w' else '-')
  let t := t.set XUSR (if mode &&& S_IXUSR ≠ 0 then 'x' else '-')
  let t := t.set RGRP (if mode &&& S_IRGRP ≠ 0 then 'r' else '-')
  let t := t.set WGRP (if mode &&& S_IWGRP ≠ 0 then 'w' else '-')
  let t := t.set XGRP (if mode &&& S_IXGRP ≠ 0 then 'x' else '-')
  let t := t.set ROTH (if mode &&& S_IROTH ≠ 0 then 'r' else '-')
  let t := t.set WOTH (if mode &&& S_IWOTH ≠ 0 then 'w' else '-')
  let t := t.set XOTH (if mode &&& S_IXOTH ≠ 0 then 'x' else '-')
  { g with file_taccess := t }

/-- Models `put_size(size)`: `snprintf(file_size, sizeof(file_size), "%ld", size)`. -/
def put_size (g : Globals) (size : Int) : Globals :=
  { g with file_size := snprintf sizeof_file_size (fmt_d size) }

/-- Models `put_dev(rdev)`:
`snprintf(file_size, sizeof(file_size), "%d, %d", major(rdev), minor(rdev))`. -/
def put_dev (g : Globals) (rdev : Nat) : Globals :=
  let text := fmt_d (as_int (major rdev)) ++ [',', ' '] ++ fmt_d (as_int (minor rdev))
  { g with file_size := snprintf sizeof_file_size text }

/-- Models `put_nlink(nlink)`: `snprintf(file_nlink, sizeof(file_nlink), "%d", nlink)`;
the parameter is an `unsigned int`. -/
def put_nlink (g : Globals) (nlink : Nat) : Globals :=
  { g with file_nlink := snprintf sizeof_file_nlink (fmt_d (as_int (nlink % 2 ^ 32))) }

/-- Models `put_time(atime)`, given what `localtime` answers: `none` when it
returns `NULL`, otherwise the text that `%c` produces for the broken-down
time.  The result of `strftime` is not tested.  `none` is the return
value 0. -/
def put_time (g : Globals) (tm : Option (List Char)) : Option Globals :=
  match tm with
  | none => none
  | some text => some { g with file_time := strftime g.file_time sizeof_file_time text }

/-! ## `main.c`: `print_dir` -/

/-- One entry returned by `readdir`, with what the operating system answers
while the entry is processed. -/
structure Entry where
  /-- Models `entry->d_name`. -/
  d_name : List Char
  /-- Models `entry->d_type`. -/
  d_type : Nat
  /-- Models `malloc` in `create_filename`: `none` for `NULL`, else the initial
  contents of the block. -/
  heap : Option (Nat → Char)
  /-- Models `stat(filename, &fstat)`: `none` for -1. -/
  stat : Option Stat
  /-- Models `errno` after `getpwuid`. -/
  pw_errno : Nat
  /-- Models `getpwuid(uid)->pw_name`: `none` for `NULL`. -/
  pw_name : Option (List Char)
  /-- Models `errno` after `getgrgid`. -/
  gr_errno : Nat
  /-- Models `getgrgid(gid)->gr_name`: `none` for `NULL`. -/
  gr_name : Option (List Char)
  /-- Models `localtime(&atm)`: `none` for `NULL`, else the text that `%c`
  produces for the time, see `put_time`. -/
  tm : Option (List Char)
  /-- Models `realpath(filename, file_realpath)`: `none` for `NULL`, else the
  resolved path stored in `file_realpath`. -/
  resolved : Option (List Char)

/-- The `switch (entry->d_type)` of `print_dir`; it has no `default` case. -/
def switch_d_type (taccess : List Char) (d_type : Nat) : List Char :=
  if d_type = DT_BLK then taccess.set FILE_TYPE 'b'
  else if d_type = DT_CHR then taccess.set FILE_TYPE 'c'
  else if d_type = DT_DIR then taccess.set FILE_TYPE 'd'
  else if d_type = DT_FIFO then taccess.set FILE_TYPE 'f'
  else if d_type = DT_LNK then taccess.set FILE_TYPE 'l'
  else if d_type = DT_REG then taccess.set FILE_TYPE '-'
  else if d_type = DT_SOCK then taccess.set FILE_TYPE 's'
  else if d_type = DT_UNKNOWN then taccess.set FILE_TYPE 'u'
  else taccess

/-- The two `printf` calls that write a line in long mode. -/
def printf_long (g : Globals) (d_name : List Char) (path : Option (List Char)) : List Char :=
  match path with
  | some _ =>
    cstr g.file_taccess ++ [' '] ++ g.file_nlink ++ ['\t'] ++ g.file_owner ++ ['\t'] ++
      g.file_group ++ ['\t'] ++ g.file_size ++ ['\t'] ++ g.file_time ++ [' '] ++ d_name ++
      [' ', '-', '>', ' '] ++ g.file_realpath ++ ['\n']
  | none =>
    cstr g.file_taccess ++ [' '] ++ g.file_nlink ++ ['\t'] ++ g.file_owner ++ ['\t'] ++
      g.file_group ++ ['\t'] ++ g.file_size ++ ['\t'] ++ g.file_time ++ [' '] ++ d_name ++
      ['\n']

/-- The body of the loop of `print_dir` in long mode, from the call of
`create_filename` to the `printf`: `none` when the body leaves the loop by
`break`, otherwise the globals and the line written. -/
def long_entry (operated_dir : List Char) (g : Globals) (e : Entry) :
    Option (Globals × List Char) :=
  match create_filename e.heap operated_dir e.d_name with
  | none => none
  | some _filename =>
    match e.stat with
    | none => none
    | some fstat =>
      let g := put_rights g fstat.st_mode
      let g := put_nlink g fstat.st_nlink
      let g := if S_ISCHR fstat.st_mode || S_ISBLK fstat.st_mode then put_dev g fstat.st_rdev
               else put_size g fstat.st_size
      match put_owner g e.pw_errno e.pw_name with
      | none => none
      | some g =>
        match put_group g e.gr_errno e.gr_name with
        | none => none
        | some g =>
          match put_time g e.tm with
          | none => none
          | some g =>
            let g := { g with file_realpath := [] }
            let path : Option (List Char) :=
              if S_ISLNK fstat.st_mode || e.d_type == DT_LNK then e.resolved else none
            let g := match path with
              | some p => { g with file_realpath := p }
              | none => g
            some (g, printf_long g e.d_name path)

/-- The `do ... while (1)` loop of `print_dir` over the entries that
`readdir` returns; the result is what the loop writes to standard output. -/
def readdir_loop (long_mode : Bool) (operated_dir : List Char) :
    List Entry → Globals → List Char
  | [], _ => []
  | e :: rest, g =>
    if FILE_IGNORED e.d_name ≠ 0 then
      readdir_loop long_mode operated_dir rest g
    else
      let g := { g with file_taccess := switch_d_type g.file_taccess e.d_type }
      if !long_mode then
        (e.d_name ++ [' ']) ++ readdir_loop long_mode operated_dir rest g
      else
        match long_entry operated_dir g e with
        | none => []
        | some (g, line) => line ++ readdir_loop long_mode operated_dir rest g

/-- Models `print_dir(name)`: what it writes to standard output.  `dir` is what
`opendir(name)` answers: `none` for `NULL`, otherwise the entries that
`readdir` returns before it returns `NULL`. -/
def print_dir (long_mode : Bool) (operated_dir : List Char) (dir : Option (List Entry))
    (g : Globals) : List Char :=
  match dir with
  | none => []
  | some entries =>
    readdir_loop long_mode operated_dir entries g ++ (if !long_mode then ['\n'] else [])

/-! ## Notions used to state the properties -/

/-- The entry passes the filter of `print_dir`. -/
def visible (e : Entry) : Bool := FILE_IGNORED e.d_name == 0

/-- The stat call, the owner lookup, the group lookup and the time
conversion of the entry all succeed, as `print_dir` tests them. -/
def lookups_ok (e : Entry) : Bool :=
  e.stat.isSome && (e.pw_errno == 0 && e.pw_name.isSome) &&
    (e.gr_errno == 0 && e.gr_name.isSome) && e.tm.isSome

/-- The link target that `print_dir` has for an entry with metadata `fstat`:
`realpath` is only asked when the mode or the type hint says symbolic link. -/
def link_target (e : Entry) (fstat : Stat) : Option (List Char) :=
  if S_ISLNK fstat.st_mode || e.d_type == DT_LNK then e.resolved else none

/-- The access field of an entry: what `%s` prints of `file_taccess` after the
`switch` on the type hint and `put_rights`, starting from globals `g`. -/
def access_field (g : Globals) (d_type mode : Nat) : List Char :=
  cstr (put_rights { g with file_taccess := switch_d_type g.file_taccess d_type } mode).file_taccess

/-- The link-count field of an entry: `file_nlink` after `put_nlink`. -/
def nlink_field (nlink : Nat) : List Char :=
  (put_nlink initial_globals nlink).file_nlink

/-- The size field of an entry: `file_size` after `put_dev` or `put_size`. -/
def size_field (fstat : Stat) : List Char :=
  (if S_ISCHR fstat.st_mode || S_ISBLK fstat.st_mode then put_dev initial_globals fstat.st_rdev
   else put_size initial_globals fstat.st_size).file_size

/-- The globals when the line of an entry is printed, for an entry whose
lookups gave `fstat`, `owner`, `group` and `time`. -/
def file_record (g : Globals) (e : Entry) (fstat : Stat) (owner group time : List Char) :
    Globals :=
  { file_taccess :=
      (put_rights { g with file_taccess := switch_d_type g.file_taccess e.d_type }
        fstat.st_mode).file_taccess
    file_nlink := nlink_field fstat.st_nlink
    file_owner := snprintf sizeof_file_owner owner
    file_group := snprintf sizeof_file_group group
    file_size := size_field fstat
    file_time := strftime g.file_time sizeof_file_time time
    file_realpath := (link_target e fstat).getD [] }

/-- The fields of a long-mode line up to the blank before the name, as both
`printf` calls write them. -/
def line_fields (g : Globals) : List Char :=
  cstr g.file_taccess ++ [' '] ++ g.file_nlink ++ ['\t'] ++ g.file_owner ++ ['\t'] ++
    g.file_group ++ ['\t'] ++ g.file_size ++ ['\t'] ++ g.file_time ++ [' ']

/-- The nine permission characters of a mode. -/
def rights (mode : Nat) : List Char :=
  [if mode &&& S_IRUSR ≠ 0 then 'r' else '-', if mode &&& S_IWUSR ≠ 0 then 'w' else '-',
   if mode &&& S_IXUSR ≠ 0 then 'x' else '-', if mode &&& S_IRGRP ≠ 0 then 'r' else '-',
   if mode &&& S_IWGRP ≠ 0 then 'w' else '-', if mode &&& S_IXGRP ≠ 0 then 'x' else '-',
   if mode &&& S_IROTH ≠ 0 then 'r' else '-', if mode &&& S_IWOTH ≠ 0 then 'w' else '-',
   if mode &&& S_IXOTH ≠ 0 then 'x' else '-']

/-- What the allocation and the lookups of an entry answer when none of them
fails: the metadata, the owner name, the group name and the time text. -/
def answers (e : Entry) : Option (Stat × List Char × List Char × List Char) :=
  match e.heap, e.stat, e.pw_name, e.gr_name, e.tm with
  | some _, some fstat, some owner, some group, some time =>
    if e.pw_errno = 0 ∧ e.gr_errno = 0 then some (fstat, owner, group, time) else none
  | _, _, _, _, _ => none

/-- The line of an entry in the long format, written from the description of
the format: access field, blank, link count, tab, owner, tab, group, tab,
size field, tab, time, blank, name, the link target if there is one,
newline. -/
def long_line (g : Globals) (e : Entry) (fstat : Stat) (owner group time : List Char) :
    List Char :=
  access_field g e.d_type fstat.st_mode ++ [' '] ++ nlink_field fstat.st_nlink ++ ['\t'] ++
    snprintf sizeof_file_owner owner ++ ['\t'] ++ snprintf sizeof_file_group group ++ ['\t'] ++
    size_field fstat ++ ['\t'] ++ time ++ [' '] ++ e.d_name ++
    (match link_target e fstat with
     | some path => [' ', '-', '>', ' '] ++ path
     | none => []) ++ ['\n']

/-- The fail-fast listing, written from its description: the lines of the
visible entries, in order, up to the first visible entry for which the
allocation or a lookup fails; that entry and the entries behind it have no
line. -/
def fail_fast_lines : List Entry → Globals → List (List Char)
  | [], _ => []
  | e :: rest, g =>
    if visible e then
      match answers e with
      | some (fstat, owner, group, time) =>
        long_line g e fstat owner group time ::
          fail_fast_lines rest (file_record g e fstat owner group time)
      | none => []
    else fail_fast_lines rest g

/-! ## Sample data -/

/-- A regular file `0644` of size 0 with one link. -/
def sample_stat : Stat :=
  { st_mode := S_IFREG ||| 0o644, st_nlink := 1, st_uid := 0, st_gid := 0, st_rdev := 0,
    st_size := 0, st_atime := 0 }

/-- An entry of the given name and type hint, all of whose lookups succeed. -/
def sample_entry (name : String) (d_type : Nat) (st : Stat) : Entry :=
  { d_name := name.toList, d_type := d_type, heap := some (fun _ => 'x'), stat := some st,
    pw_errno := 0, pw_name := some "root".toList, gr_errno := 0, gr_name := some "root".toList,
    tm := some "Thu Jan  1 00:00:00 1970".toList, resolved := none }

/-- A character device `0644` with device numbers `ma`, `mi`. -/
def sample_device (ma mi : Nat) : Stat :=
  { st_mode := S_IFCHR ||| 0o644, st_nlink := 1, st_uid := 0, st_gid := 0,
    st_rdev := makedev ma mi, st_size := 0, st_atime := 0 }

/-- A regular file `0644` of size 0 with `n` links. -/
def sample_links (n : Nat) : Stat :=
  { st_mode := S_IFREG ||| 0o644, st_nlink := n, st_uid := 0, st_gid := 0, st_rdev := 0,
    st_size := 0, st_atime := 0 }

/-- A symbolic link named `l`, for which `realpath` answers `resolved`. -/
def sample_link (resolved : Option (List Char)) : Entry :=
  { d_name := ['l'], d_type := DT_LNK, heap := some (fun _ => 'x'), stat := some sample_stat,
    pw_errno := 0, pw_name := some "root".toList, gr_errno := 0, gr_name := some "root".toList,
    tm := some "Thu Jan  1 00:00:00 1970".toList, resolved := resolved }

/-- An entry named `b` for which `stat` fails. -/
def sample_unreadable : Entry :=
  { d_name := ['b'], d_type := DT_REG, heap := some (fun _ => 'x'), stat := none,
    pw_errno := 0, pw_name := some "root".toList, gr_errno := 0, gr_name := some "root".toList,
    tm := some "Thu Jan  1 00:00:00 1970".toList, resolved := none }

/-- An entry named `a` for which `malloc` fails in `create_filename`, while
all lookups would succeed. -/
def sample_no_memory : Entry :=
  { d_name := ['a'], d_type := DT_REG, heap := none, stat := some sample_stat,
    pw_errno := 0, pw_name := some "root".toList, gr_errno := 0, gr_name := some "root".toList,
    tm := some "Thu Jan  1 00:00:00 1970".toList, resolved := none }

/-- An entry named `b` whose access time lies in the year 10000: the text of
`%c` has 25 characters and does not fit `file_time` with its NUL. -/
def sample_far_future : Entry :=
  { d_name := ['b'], d_type := DT_REG, heap := some (fun _ => 'x'), stat := some sample_stat,
    pw_errno := 0, pw_name := some "root".toList, gr_errno := 0, gr_name := some "root".toList,
    tm := some "Sat Jan  1 00:00:00 10000".toList, resolved := none }

/-- A symbolic link named `l` to a regular file, as a file system without
type hints presents it: `readdir` answers `DT_UNKNOWN`, `stat` follows the
link and answers the metadata of the target, and `realpath` would resolve
the link to `/x`. -/
def sample_link_unhinted : Entry :=
  { d_name := ['l'], d_type := DT_UNKNOWN, heap := some (fun _ => 'x'),
    stat := some sample_stat, pw_errno := 0, pw_name := some "root".toList, gr_errno := 0,
    gr_name := some "root".toList, tm := some "Thu Jan  1 00:00:00 1970".toList,
    resolved := some ['/', 'x'] }

/-! ## Lemmas on buffers and C strings -/

theorem cstr_append_nul (s tail : List Char) (h : NUL ∉ s) : cstr (s ++ NUL :: tail) = s := by
  induction s with
  | nil => simp [cstr, List.takeWhile]
  | cons c s ih =>
    have hc : c ≠ NUL := fun hc => h (by simp [hc])
    have hs : NUL ∉ s := fun hs => h (by simp [hs])
    have := ih hs
    have hb : (c != NUL) = true := by simpa using hc
    simp only [cstr] at this
    show List.takeWhile (fun c => c != NUL) (c :: (s ++ NUL :: tail)) = c :: s
    rw [List.takeWhile_cons, hb, if_pos rfl, this]

theorem store_at (pre rest src : List Char) (h : src.length ≤ rest.length) :
    store (pre ++ rest) pre.length src = some (pre ++ src ++ rest.drop src.length) := by
  unfold store
  have hle : pre.length + src.length ≤ (pre ++ rest).length := by
    simp only [List.length_append]; omega
  rw [if_pos hle]
  simp [List.take_append_eq_append_take, List.drop_append_eq_append_drop]

theorem store_zero (buf src : List Char) (h : src.length ≤ buf.length) :
    store buf 0 src = some (src ++ buf.drop src.length) := by
  simpa using store_at [] buf src h

theorem char_at_last (path : List Char) (h : path ≠ []) :
    char_at path (strlen path - 1) = path.getLast h := by
  unfold char_at strlen
  have hlt : path.length - 1 < path.length := by
    have := List.length_pos.mpr h
    omega
  rw [List.getD_eq_getElem?_getD, List.getElem?_append_left hlt, List.getLast_eq_getElem]
  simp [List.getElem?_eq_getElem hlt]

/-- The test `strlen(path) >= 1 && path[strlen(path)-1] != '/'` is false
exactly when `path` is empty or ends in `'/'`. -/
theorem separator_test (path : List Char) :
    (strlen path ≥ 1 ∧ char_at path (strlen path - 1) ≠ '/') ↔
      ¬ (path = [] ∨ path.getLast? = some '/') := by
  by_cases h : path = []
  · subst h; simp [strlen]
  · have hlen : strlen path ≥ 1 := List.length_pos.mpr h
    rw [char_at_last path h, List.getLast?_eq_getLast path h]
    simp [h, hlen]

theorem malloc_length (n : Nat) (junk : Nat → Char) :
    ∃ blk, malloc n (some junk) = some blk ∧ blk.length = n :=
  ⟨(List.range n).map junk, rfl, by simp⟩

/-- The buffer `create_filename` returns when `malloc` succeeds. -/
theorem create_filename_buffer (junk : Nat → Char) (path name : List Char) :
    create_filename (some junk) path name =
      some (if path = [] ∨ path.getLast? = some '/' then path ++ name ++ [NUL]
            else path ++ '/' :: name ++ [NUL]) := by
  unfold create_filename
  by_cases hsep : path = [] ∨ path.getLast? = some '/'
  · have htest : ¬ (strlen path ≥ 1 ∧ char_at path (strlen path - 1) ≠ '/') := by
      rw [separator_test]; exact not_not.mpr hsep
    simp only [if_neg htest, if_pos hsep]
    obtain ⟨blk, hblk, hlen⟩ := malloc_length (strlen path + strlen name + 1) junk
    rw [hblk]
    simp only [strlen] at hlen ⊢
    have h1 : store blk 0 [NUL] = some ([NUL] ++ blk.drop 1) :=
      store_zero blk [NUL] (by simp [hlen])
    rw [h1, Option.some_bind]
    have h2 : memcpy ([NUL] ++ blk.drop 1) 0 path path.length =
        some (path ++ ([NUL] ++ blk.drop 1).drop path.length) := by
      unfold memcpy
      rw [List.take_length]
      exact store_zero _ path (by simp [hlen]; omega)
    rw [h2, Option.some_bind]
    have h3 := store_at path (([NUL] ++ blk.drop 1).drop path.length) (name ++ [NUL])
      (by simp [hlen]; omega)
    unfold strcpy
    rw [h3]
    have h4 : (([NUL] ++ blk.drop 1).drop path.length).drop (name ++ [NUL]).length = [] := by
      apply List.drop_eq_nil_of_le
      simp [hlen]; omega
    rw [h4]
    simp
  · have htest : strlen path ≥ 1 ∧ char_at path (strlen path - 1) ≠ '/' := by
      rw [separator_test]; exact hsep
    simp only [if_pos htest, if_neg hsep]
    obtain ⟨blk, hblk, hlen⟩ := malloc_length (strlen path + strlen name + 1 + 1) junk
    rw [hblk]
    simp only [strlen] at hlen ⊢
    have h1 : store blk 0 [NUL] = some ([NUL] ++ blk.drop 1) :=
      store_zero blk [NUL] (by simp [hlen])
    rw [h1, Option.some_bind]
    have h2 : memcpy ([NUL] ++ blk.drop 1) 0 path path.length =
        some (path ++ ([NUL] ++ blk.drop 1).drop path.length) := by
      unfold memcpy
      rw [List.take_length]
      exact store_zero _ path (by simp [hlen]; omega)
    rw [h2, Option.some_bind]
    have h3 : memset (path ++ ([NUL] ++ blk.drop 1).drop path.length) path.length '/' 1 =
        some (path ++ ['/'] ++ (([NUL] ++ blk.drop 1).drop path.length).drop 1) := by
      unfold memset
      exact store_at path _ (List.replicate 1 '/') (by simp [hlen]; omega)
    rw [h3, Option.some_bind]
    have h4 := store_at (path ++ ['/']) ((([NUL] ++ blk.drop 1).drop path.length).drop 1)
      (name ++ [NUL]) (by simp [hlen]; omega)
    unfold strcpy
    have hoff : (path ++ ['/']).length = path.length + 1 := by simp
    rw [hoff] at h4
    rw [h4]
    have h5 : ((([NUL] ++ blk.drop 1).drop path.length).drop 1).drop (name ++ [NUL]).length
        = [] := by
      apply List.drop_eq_nil_of_le
      simp [hlen]; omega
    rw [h5]
    simp

theorem FILE_IGNORED_iff (name : List Char) :
    FILE_IGNORED name ≠ 0 ↔ name.head? = some '.' := by
  cases name with
  | nil => simp [FILE_IGNORED, char_at, NUL]
  | cons c rest =>
    by_cases hc : c = '.' <;> simp [FILE_IGNORED, char_at, hc]

theorem readdir_loop_short (operated_dir : List Char) (entries : List Entry) (g : Globals) :
    readdir_loop false operated_dir entries g =
      ((entries.filter (fun e => e.d_name.head? != some '.')).map
        (fun e => e.d_name ++ [' '])).flatten := by
  induction entries generalizing g with
  | nil => simp [readdir_loop]
  | cons e rest ih =>
    by_cases h : e.d_name.head? = some '.'
    · have hi : FILE_IGNORED e.d_name ≠ 0 := (FILE_IGNORED_iff _).mpr h
      simp [readdir_loop, hi, h, ih]
    · have hi : ¬ FILE_IGNORED e.d_name ≠ 0 := fun hi => h ((FILE_IGNORED_iff _).mp hi)
      simp [readdir_loop, hi, h, ih]

theorem create_filename_none (path name : List Char) :
    create_filename none path name = none := by
  simp [create_filename, malloc]

theorem printf_long_fields (g : Globals) (d_name : List Char) (path : Option (List Char)) :
    printf_long g d_name path =
      match path with
      | some _ => line_fields g ++ d_name ++ [' ', '-', '>', ' '] ++ g.file_realpath ++ ['\n']
      | none => line_fields g ++ d_name ++ ['\n'] := by
  cases path <;> simp [printf_long, line_fields]

/-- The loop body on an entry whose allocation and lookups succeed. -/
theorem long_entry_ok (operated_dir : List Char) (g : Globals) (e : Entry)
    (junk : Nat → Char) (fstat : Stat) (owner group time : List Char)
    (hheap : e.heap = some junk) (hstat : e.stat = some fstat)
    (hpe : e.pw_errno = 0) (hpw : e.pw_name = some owner)
    (hge : e.gr_errno = 0) (hgr : e.gr_name = some group) (htm : e.tm = some time) :
    long_entry operated_dir { g with file_taccess := switch_d_type g.file_taccess e.d_type } e =
      some (file_record g e fstat owner group time,
            printf_long (file_record g e fstat owner group time) e.d_name
              (link_target e fstat)) := by
  unfold long_entry
  rw [hheap, create_filename_buffer, hstat]
  simp only [hpe, hpw, hge, hgr, htm, put_owner, put_group, put_time, ne_eq, not_true_eq_false,
    if_false]
  have hpath : (if (S_ISLNK fstat.st_mode || e.d_type == DT_LNK) = true then e.resolved
      else none) = link_target e fstat := rfl
  rw [hpath]
  by_cases hdev : (S_ISCHR fstat.st_mode || S_ISBLK fstat.st_mode) = true
  · cases hl : link_target e fstat <;>
      simp [file_record, hl, hdev, size_field, nlink_field, put_rights, put_nlink, put_dev,
        put_size]
  · cases hl : link_target e fstat <;>
      simp [file_record, hl, hdev, size_field, nlink_field, put_rights, put_nlink, put_dev,
        put_size]

/-- The loop body leaves the loop when the allocation or a lookup fails. -/
theorem long_entry_fail (operated_dir : List Char) (g : Globals) (e : Entry)
    (h : e.heap = none ∨ lookups_ok e = false) : long_entry operated_dir g e = none := by
  unfold long_entry
  cases hh : e.heap with
  | none => simp [create_filename_none]
  | some junk =>
    rw [create_filename_buffer]
    have hl : lookups_ok e = false := by
      rcases h with h | h
      · rw [hh] at h; cases h
      · exact h
    cases hs : e.stat with
    | none => simp
    | some fstat =>
      simp only []
      by_cases hpe : e.pw_errno = 0
      · cases hpw : e.pw_name with
        | none => simp [put_owner, hpe]
        | some owner =>
          by_cases hge : e.gr_errno = 0
          · cases hgr : e.gr_name with
            | none => simp [put_owner, put_group, hpe, hge]
            | some group =>
              cases htm : e.tm with
              | none => simp [put_owner, put_group, put_time, hpe, hge]
              | some time => simp [lookups_ok, hs, hpe, hpw, hge, hgr, htm] at hl
          · simp [put_owner, put_group, hpe, hge]
      · simp [put_owner, hpe]

/-- A buffer of `FILE_DESC_MAX + 1` characters, element by element. -/
theorem taccess_elements (t : List Char) (h : t.length = FILE_DESC_MAX + 1) :
    ∃ a0 a1 a2 a3 a4 a5 a6 a7 a8 a9 a10, t = [a0, a1, a2, a3, a4, a5, a6, a7, a8, a9, a10] := by
  rcases t with _ | ⟨a0, _ | ⟨a1, _ | ⟨a2, _ | ⟨a3, _ | ⟨a4, _ | ⟨a5, _ | ⟨a6, _ | ⟨a7, _ |
    ⟨a8, _ | ⟨a9, _ | ⟨a10, _ | ⟨a11, t⟩⟩⟩⟩⟩⟩⟩⟩⟩⟩⟩⟩ <;>
  first
    | exact ⟨_, _, _, _, _, _, _, _, _, _, _, rfl⟩
    | (simp [FILE_DESC_MAX] at h)

theorem rights_no_nul (mode : Nat) : NUL ∉ rights mode := by
  simp only [rights, List.mem_cons, List.mem_singleton, List.not_mem_nil, or_false, not_or]
  refine ⟨?_, ?_, ?_, ?_, ?_, ?_, ?_, ?_, ?_⟩ <;> split <;> decide

/-- The function `put_rights` stores the permission characters behind the type character
and leaves the type character and the last byte as they are. -/
theorem put_rights_taccess (g : Globals) (mode : Nat) (c0 : Char) (mid : List Char) (c10 : Char)
    (h : g.file_taccess = c0 :: (mid ++ [c10])) (hmid : mid.length = 9) :
    (put_rights g mode).file_taccess = c0 :: (rights mode ++ [c10]) := by
  have hlen : g.file_taccess.length = FILE_DESC_MAX + 1 := by
    rw [h]; simp [hmid, FILE_DESC_MAX]
  obtain ⟨a0, a1, a2, a3, a4, a5, a6, a7, a8, a9, a10, ht⟩ := taccess_elements _ hlen
  rw [ht] at h
  simp only [List.cons.injEq] at h
  obtain ⟨h0, hrest⟩ := h
  have h10 : a10 = c10 := by
    have := congrArg (fun l => l.getLast?) hrest
    simpa using this
  simp [put_rights, ht, rights, RUSR, WUSR, XUSR, RGRP, WGRP, XGRP, ROTH, WOTH, XOTH, h0, h10]

/-- The access field when the `switch` has stored the type character `tc`:
`tc` and the nine permission characters, ten characters in all. -/
theorem access_field_of_type_char (g : Globals) (d_type mode : Nat) (tc : Char)
    (mid : List Char) (hsw : switch_d_type g.file_taccess d_type = tc :: (mid ++ [NUL]))
    (htc : tc ≠ NUL) (hmid : mid.length = 9) :
    access_field g d_type mode = tc :: rights mode := by
  have hput := put_rights_taccess
    { g with file_taccess := switch_d_type g.file_taccess d_type } mode tc mid NUL hsw hmid
  have hno : NUL ∉ tc :: rights mode := by
    simp only [List.mem_cons, not_or]
    exact ⟨fun h => htc h.symm, rights_no_nul mode⟩
  unfold access_field
  rw [hput]
  exact cstr_append_nul (tc :: rights mode) [] hno

/-- For the type hints the `switch` lists, the access field is a type
character and the nine permission characters: ten characters in all. -/
theorem access_field_listed_hint (g : Globals) (d_type mode : Nat) (c0 : Char)
    (mid : List Char) (hbuf : g.file_taccess = c0 :: (mid ++ [NUL])) (hmid : mid.length = 9)
    (hd : d_type ∈ [DT_BLK, DT_CHR, DT_DIR, DT_FIFO, DT_LNK, DT_REG, DT_SOCK, DT_UNKNOWN]) :
    ∃ tc, access_field g d_type mode = tc :: rights mode ∧
      (access_field g d_type mode).length = 10 := by
  have hsw : ∃ tc, tc ≠ NUL ∧ switch_d_type g.file_taccess d_type = tc :: (mid ++ [NUL]) := by
    rw [hbuf]
    simp only [List.mem_cons, List.mem_singleton, List.not_mem_nil, or_false] at hd
    rcases hd with rfl | rfl | rfl | rfl | rfl | rfl | rfl | rfl
    · exact ⟨'b', by decide, by simp [switch_d_type, FILE_TYPE]⟩
    · exact ⟨'c', by decide, by simp [switch_d_type, FILE_TYPE, DT_CHR, DT_BLK]⟩
    · exact ⟨'d', by decide, by simp [switch_d_type, FILE_TYPE, DT_DIR, DT_CHR, DT_BLK]⟩
    · exact ⟨'f', by decide,
        by simp [switch_d_type, FILE_TYPE, DT_FIFO, DT_DIR, DT_CHR, DT_BLK]⟩
    · exact ⟨'l', by decide,
        by simp [switch_d_type, FILE_TYPE, DT_LNK, DT_FIFO, DT_DIR, DT_CHR, DT_BLK]⟩
    · exact ⟨'-', by decide,
        by simp [switch_d_type, FILE_TYPE, DT_REG, DT_LNK, DT_FIFO, DT_DIR, DT_CHR, DT_BLK]⟩
    · exact ⟨'s', by decide,
        by simp [switch_d_type, FILE_TYPE, DT_SOCK, DT_REG, DT_LNK, DT_FIFO, DT_DIR, DT_CHR,
          DT_BLK]⟩
    · exact ⟨'u', by decide,
        by simp [switch_d_type, FILE_TYPE, DT_UNKNOWN, DT_SOCK, DT_REG, DT_LNK, DT_FIFO, DT_DIR,
          DT_CHR, DT_BLK]⟩
  obtain ⟨tc, htc, hsw⟩ := hsw
  have hc := access_field_of_type_char g d_type mode tc mid hsw htc hmid
  exact ⟨tc, hc, by rw [hc]; simp [rights]⟩

/-- The shape of `file_taccess` (a type character, nine characters, the NUL
that `main` stores) holds at the start and is kept by every entry. -/
theorem file_taccess_shape :
    (∃ c0 mid, initial_globals.file_taccess = c0 :: (mid ++ [NUL]) ∧ mid.length = 9) ∧
    (∀ (g : Globals) (e : Entry) (fstat : Stat) (owner group time : List Char) (c0 : Char)
        (mid : List Char),
      g.file_taccess = c0 :: (mid ++ [NUL]) → mid.length = 9 →
      ∃ c0' mid', (file_record g e fstat owner group time).file_taccess = c0' :: (mid' ++ [NUL])
        ∧ mid'.length = 9) := by
  constructor
  · exact ⟨NUL, List.replicate 9 NUL, by decide, by simp⟩
  · intro g e fstat owner group time c0 mid hbuf hmid
    have hsw : ∃ tc, switch_d_type g.file_taccess e.d_type = tc :: (mid ++ [NUL]) := by
      rw [hbuf]
      unfold switch_d_type
      repeat' split
      all_goals exact ⟨_, rfl⟩
    obtain ⟨tc, hsw⟩ := hsw
    have hput := put_rights_taccess
      { g with file_taccess := switch_d_type g.file_taccess e.d_type } fstat.st_mode tc mid NUL
      hsw hmid
    exact ⟨tc, rights fstat.st_mode, by simp only [file_record]; exact hput, by simp [rights]⟩

/-- The decimal digits of a number below `10 ^ k` are at most `k`. -/
theorem toDigits_length_le (n k : Nat) (hk : 0 < k) (h : n < 10 ^ k) :
    (Nat.toDigits 10 n).length ≤ k :=
  Nat.toDigitsCore_length 10 (by decide) (n + 1) n k h hk

/-- The buffer `file_size` holds the decimal text of every `long`: `put_size`
cuts nothing off. -/
theorem put_size_complete (g : Globals) (size : Int) (hlo : -(2 ^ 63) ≤ size)
    (hhi : size < 2 ^ 63) : (put_size g size).file_size = fmt_d size := by
  have habs : size.natAbs < 10 ^ 19 := by omega
  have hlen := toDigits_length_le size.natAbs 19 (by decide) habs
  have hfit : (fmt_d size).length ≤ sizeof_file_size - 1 := by
    have hsz : sizeof_file_size - 1 = 21 := by decide
    rw [hsz]
    unfold fmt_d
    split
    · simp only [List.length_cons]; omega
    · omega
  simp only [put_size, snprintf]
  exact List.take_of_length_le hfit

/-- The buffer `file_nlink` holds the decimal text of a link count below
`10 ^ 9`. -/
theorem put_nlink_small (g : Globals) (nlink : Nat) (h : nlink < 10 ^ 9) :
    (put_nlink g nlink).file_nlink = Nat.toDigits 10 nlink := by
  have hmod : nlink % 2 ^ 32 = nlink := Nat.mod_eq_of_lt (by omega)
  have hint : as_int nlink = (nlink : Int) := by
    unfold as_int
    rw [hmod, if_pos (by omega)]
  have hfmt : fmt_d (as_int nlink) = Nat.toDigits 10 nlink := by
    rw [hint]
    unfold fmt_d
    rw [if_neg (by omega)]
    simp
  have hlen := toDigits_length_le nlink 9 (by decide) h
  simp only [put_nlink, snprintf, hmod, hfmt]
  apply List.take_of_length_le
  have hsz : sizeof_file_nlink - 1 = 9 := by decide
  rw [hsz]
  exact hlen

/-- An entry has answers exactly when its allocation and its lookups succeed. -/
theorem answers_isSome (e : Entry) :
    (answers e).isSome = (e.heap.isSome && lookups_ok e) := by
  unfold answers lookups_ok
  cases e.heap <;> cases e.stat <;> cases e.pw_name <;> cases e.gr_name <;> cases e.tm <;>
    by_cases hpe : e.pw_errno = 0 <;> by_cases hge : e.gr_errno = 0 <;> simp [hpe, hge]

/-- The answers of an entry, one by one. -/
theorem answers_some (e : Entry) (fstat : Stat) (owner group time : List Char)
    (h : answers e = some (fstat, owner, group, time)) :
    (∃ junk, e.heap = some junk) ∧ e.stat = some fstat ∧ e.pw_errno = 0 ∧
      e.pw_name = some owner ∧ e.gr_errno = 0 ∧ e.gr_name = some group ∧ e.tm = some time := by
  unfold answers at h
  cases hh : e.heap <;> cases hs : e.stat <;> cases hpw : e.pw_name <;>
    cases hgr : e.gr_name <;> cases htm : e.tm <;> simp only [hh, hs, hpw, hgr, htm] at h <;>
    try cases h
  split at h
  · rename_i hz
    simp only [Option.some.injEq, Prod.mk.injEq] at h
    obtain ⟨h1, h2, h3, h4⟩ := h
    subst h1 h2 h3 h4
    exact ⟨⟨_, rfl⟩, rfl, hz.1, rfl, hz.2, rfl, rfl⟩
  · cases h

/-- The line that `printf` writes for a record whose time text fits
`file_time` is the line of the long format. -/
theorem printf_long_record (g : Globals) (e : Entry) (fstat : Stat)
    (owner group time : List Char) (hfit : time.length < sizeof_file_time) :
    printf_long (file_record g e fstat owner group time) e.d_name (link_target e fstat) =
      long_line g e fstat owner group time := by
  have htime : strftime g.file_time sizeof_file_time time = time := by
    simp [strftime, hfit]
  cases hl : link_target e fstat <;>
    simp [printf_long, long_line, file_record, access_field, hl, htime]

/-- The long-mode loop writes the fail-fast listing when every time text fits
`file_time`. -/
theorem readdir_loop_fail_fast (operated_dir : List Char) (entries : List Entry) (g : Globals)
    (hfit : ∀ e ∈ entries, ∀ text, e.tm = some text → text.length < sizeof_file_time) :
    readdir_loop true operated_dir entries g = (fail_fast_lines entries g).flatten ∧
    (fail_fast_lines entries g).length =
      ((entries.filter visible).takeWhile (fun e => (answers e).isSome)).length := by
  induction entries generalizing g with
  | nil => simp [readdir_loop, fail_fast_lines]
  | cons e rest ih =>
    have hrest : ∀ x ∈ rest, ∀ text, x.tm = some text → text.length < sizeof_file_time :=
      fun x hx => hfit x (List.mem_cons_of_mem _ hx)
    by_cases hvis : FILE_IGNORED e.d_name = 0
    · have hv : visible e = true := by simp [visible, hvis]
      rw [readdir_loop, fail_fast_lines, List.filter_cons_of_pos hv]
      simp only [hvis, ne_eq, not_true_eq_false, if_false, Bool.not_true, Bool.false_eq_true, hv,
        if_true]
      cases ha : answers e with
      | none =>
        have hsome : (answers e).isSome = false := by simp [ha]
        rw [answers_isSome] at hsome
        have hfail : e.heap = none ∨ lookups_ok e = false := by
          cases hh : e.heap with
          | none => exact Or.inl rfl
          | some junk => right; simpa [hh] using hsome
        rw [long_entry_fail operated_dir _ e hfail, List.takeWhile_cons_of_neg (by simp [ha])]
        simp
      | some r =>
        obtain ⟨fstat, owner, group, time⟩ := r
        obtain ⟨⟨junk, hjunk⟩, hs, hpe, hpw, hge, hgr, htm⟩ :=
          answers_some e fstat owner group time ha
        have hbody := long_entry_ok operated_dir g e junk fstat owner group time hjunk hs hpe
          hpw hge hgr htm
        have htime := hfit e (List.mem_cons_self _ _) time htm
        rw [printf_long_record g e fstat owner group time htime] at hbody
        rw [List.takeWhile_cons_of_pos (by simp [ha])]
        simp only [hbody, List.flatten_cons, List.length_cons]
        obtain ⟨h1, h2⟩ := ih (file_record g e fstat owner group time) hrest
        rw [h1, h2]
        exact ⟨rfl, rfl⟩
    · have hv : ¬ visible e = true := by simp [visible, hvis]
      rw [readdir_loop, fail_fast_lines, List.filter_cons_of_neg hv]
      simp only [ne_eq, hvis, not_false_eq_true, if_true, hv, Bool.false_eq_true, if_false]
      exact ih g hrest

/-- The device numbers of an identifier below `2 ^ 32`. -/
theorem major_minor_bound (dev : Nat) (h : dev < 2 ^ 32) :
    major dev < 4096 ∧ minor dev < 2 ^ 20 := by
  constructor
  · unfold major
    have h0 : dev >>> 32 = 0 := by
      rw [Nat.shiftRight_eq_div_pow]
      exact Nat.div_eq_of_lt h
    rw [h0, Nat.zero_and, Nat.zero_or]
    have := @Nat.and_le_right (dev >>> 8) 0x00000fff
    omega
  · unfold minor
    apply Nat.or_lt_two_pow
    · have h1 : dev >>> 12 < 2 ^ 20 := by
        rw [Nat.shiftRight_eq_div_pow]
        omega
      have := @Nat.and_le_left (dev >>> 12) 0xffffff00
      omega
    · have := @Nat.and_le_right dev 0x000000ff
      omega

/-- The conversion `%d` of a number below `2 ^ 31` handed over as `unsigned
int` gives its decimal digits. -/
theorem fmt_d_as_int (n : Nat) (h : n < 2 ^ 31) : fmt_d (as_int n) = Nat.toDigits 10 n := by
  have hmod : n % 2 ^ 32 = n := Nat.mod_eq_of_lt (by omega)
  have hint : as_int n = (n : Int) := by
    unfold as_int
    rw [hmod, if_pos (by omega)]
  rw [hint]
  unfold fmt_d
  rw [if_neg (by omega)]
  simp

/-- The conversion `%d` writes the decimal representation of the value. -/
theorem fmt_d_eq_toString (v : Int) : fmt_d v = (toString v).toList := by
  unfold fmt_d
  cases v with
  | ofNat m =>
    have h : ¬ (Int.ofNat m < 0) := by simp
    rw [if_neg h]
    rfl
  | negSucc m =>
    rw [if_pos (Int.negSucc_lt_zero m)]
    rfl

/-! ## The claims -/

/-- C1: an entry is visible (`FILE_IGNORED` gives 0) exactly when the first
character of its name is not `'.'`; the rest of the name has no influence;
and `print_dir` skips an ignored entry in both modes, leaving the output and
the globals as they are. -/
theorem entry_filter_first_char :
    (∀ name : List Char, FILE_IGNORED name = 0 ↔ name.head? ≠ some '.') ∧
    (∀ (c : Char) (rest rest' : List Char),
      FILE_IGNORED (c :: rest) = FILE_IGNORED (c :: rest')) ∧
    (∀ (tail : List Char), FILE_IGNORED ('.' :: tail) = 1) ∧
    (∀ (long_mode : Bool) (operated_dir tail : List Char) (e : Entry) (rest : List Entry)
        (g : Globals),
      readdir_loop long_mode operated_dir ({ e with d_name := '.' :: tail } :: rest) g =
        readdir_loop long_mode operated_dir rest g) := by
  refine ⟨?_, ?_, ?_, ?_⟩
  · intro name
    have := FILE_IGNORED_iff name
    constructor
    · intro h0 hd
      exact (this.mpr hd) h0
    · intro hd
      by_contra h0
      exact hd (this.mp h0)
  · intro c rest rest'
    simp [FILE_IGNORED, char_at]
  · intro tail
    simp [FILE_IGNORED, char_at]
  · intro long_mode operated_dir tail e rest g
    simp [readdir_loop, FILE_IGNORED, char_at]

/-- C2: in short mode, for a directory that opens and any entries returned
by the enumeration, `print_dir` writes the names of the entries that do not
start with `'.'`, in enumeration order, each followed by one space, and then
one newline; entries `a`, `b`, `.c` give `"a b \n"` and no visible entry
gives `"\n"`. -/
theorem short_mode_output :
    (∀ (operated_dir : List Char) (entries : List Entry) (g : Globals),
      print_dir false operated_dir (some entries) g =
        ((entries.filter (fun e => e.d_name.head? != some '.')).map
          (fun e => e.d_name ++ [' '])).flatten ++ ['\n']) ∧
    (∀ (operated_dir : List Char) (ea eb ec : Entry) (g : Globals),
      print_dir false operated_dir
        (some [{ ea with d_name := ['a'] }, { eb with d_name := ['b'] },
               { ec with d_name := ['.', 'c'] }]) g = ['a', ' ', 'b', ' ', '\n']) ∧
    (∀ (operated_dir : List Char) (entries : List Entry) (g : Globals),
      (entries.filter (fun e => e.d_name.head? != some '.')) = [] →
      print_dir false operated_dir (some entries) g = ['\n']) := by
  have main : ∀ (operated_dir : List Char) (entries : List Entry) (g : Globals),
      print_dir false operated_dir (some entries) g =
        ((entries.filter (fun e => e.d_name.head? != some '.')).map
          (fun e => e.d_name ++ [' '])).flatten ++ ['\n'] := by
    intro operated_dir entries g
    simp [print_dir, readdir_loop_short]
  refine ⟨main, ?_, ?_⟩
  · intro operated_dir ea eb ec g
    rw [main]
    simp
  · intro operated_dir entries g h
    rw [main, h]
    simp

/-- Witness of C2: the listing of `a`, `b`, `.c` and of a directory that
holds only `.` and `..`. -/
theorem short_mode_output_witness :
    print_dir false ['.']
      (some [sample_entry "a" DT_REG sample_stat, sample_entry "b" DT_DIR sample_stat,
             sample_entry ".c" DT_REG sample_stat]) initial_globals = "a b \n".toList ∧
    print_dir false ['.']
      (some [sample_entry "." DT_DIR sample_stat, sample_entry ".." DT_DIR sample_stat])
      initial_globals = "\n".toList :=
  ⟨by rw [short_mode_output.1]; decide,
   short_mode_output.2.2 _ _ _ rfl⟩

/-- C3, the code at the failing input: the first visible entry has a type
hint that the `switch` does not list (`DT_WHT`), so the type character is
still the NUL of the zeroed buffer, `%s` prints nothing for `file_taccess`,
and the line starts with the blank that follows the access field. -/
theorem access_field_unlisted_hint :
    access_field initial_globals DT_WHT sample_stat.st_mode = [] ∧
    (access_field initial_globals DT_WHT sample_stat.st_mode).length ≠ 10 ∧
    print_dir true ['.'] (some [sample_entry "w" DT_WHT sample_stat]) initial_globals =
      " 1\troot\troot\t0\tThu Jan  1 00:00:00 1970 w\n".toList := by
  decide

/-- C4, counterexample: the type character of a fifo is `'f'`, not `'p'`. -/
theorem fifo_type_char :
    (access_field initial_globals DT_FIFO sample_stat.st_mode)[FILE_TYPE]? = some 'f' ∧
    (access_field initial_globals DT_FIFO sample_stat.st_mode)[FILE_TYPE]? ≠ some 'p' ∧
    print_dir true ['.'] (some [sample_entry "q" DT_FIFO sample_stat]) initial_globals =
      "frw-r--r-- 1\troot\troot\t0\tThu Jan  1 00:00:00 1970 q\n".toList := by
  decide

/-- C4, amended: whatever type character the buffer holds from earlier
entries, the type character at position 0 of the access field is `'b'` for
a block device, `'c'` for a character device, `'d'` for a directory, `'f'`
for a fifo, `'l'` for a symbolic link, `'-'` for a regular file, `'s'` for a
socket and `'u'` for the hint `DT_UNKNOWN`. -/
theorem type_char_of_hint (g : Globals) (mode : Nat) (c0 : Char) (mid : List Char)
    (hbuf : g.file_taccess = c0 :: (mid ++ [NUL])) (hmid : mid.length = 9) :
    (access_field g DT_BLK mode)[FILE_TYPE]? = some 'b' ∧
    (access_field g DT_CHR mode)[FILE_TYPE]? = some 'c' ∧
    (access_field g DT_DIR mode)[FILE_TYPE]? = some 'd' ∧
    (access_field g DT_FIFO mode)[FILE_TYPE]? = some 'f' ∧
    (access_field g DT_LNK mode)[FILE_TYPE]? = some 'l' ∧
    (access_field g DT_REG mode)[FILE_TYPE]? = some '-' ∧
    (access_field g DT_SOCK mode)[FILE_TYPE]? = some 's' ∧
    (access_field g DT_UNKNOWN mode)[FILE_TYPE]? = some 'u' := by
  have key : ∀ (d_type : Nat) (tc : Char), tc ≠ NUL →
      switch_d_type (c0 :: (mid ++ [NUL])) d_type = tc :: (mid ++ [NUL]) →
      (access_field g d_type mode)[FILE_TYPE]? = some tc := by
    intro d_type tc htc hsw
    rw [← hbuf] at hsw
    rw [access_field_of_type_char g d_type mode tc mid hsw htc hmid]
    rfl
  refine ⟨key _ 'b' (by decide) ?_, key _ 'c' (by decide) ?_, key _ 'd' (by decide) ?_,
    key _ 'f' (by decide) ?_, key _ 'l' (by decide) ?_, key _ '-' (by decide) ?_,
    key _ 's' (by decide) ?_, key _ 'u' (by decide) ?_⟩ <;>
  simp [switch_d_type, FILE_TYPE, DT_UNKNOWN, DT_SOCK, DT_REG, DT_LNK, DT_FIFO, DT_DIR,
    DT_CHR, DT_BLK]

/-- Witness of C4: the type characters printed over the buffer that an
earlier directory entry left. -/
theorem type_char_of_hint_witness :
    ({ initial_globals with file_taccess := "drwxr-xr-x\x00".toList } : Globals).file_taccess =
      'd' :: ("rwxr-xr-x".toList ++ [NUL]) ∧
    "rwxr-xr-x".toList.length = 9 ∧
    ((access_field { initial_globals with file_taccess := "drwxr-xr-x\x00".toList } DT_BLK
        0o644)[FILE_TYPE]? = some 'b' ∧
     (access_field { initial_globals with file_taccess := "drwxr-xr-x\x00".toList } DT_CHR
        0o644)[FILE_TYPE]? = some 'c' ∧
     (access_field { initial_globals with file_taccess := "drwxr-xr-x\x00".toList } DT_DIR
        0o644)[FILE_TYPE]? = some 'd' ∧
     (access_field { initial_globals with file_taccess := "drwxr-xr-x\x00".toList } DT_FIFO
        0o644)[FILE_TYPE]? = some 'f' ∧
     (access_field { initial_globals with file_taccess := "drwxr-xr-x\x00".toList } DT_LNK
        0o644)[FILE_TYPE]? = some 'l' ∧
     (access_field { initial_globals with file_taccess := "drwxr-xr-x\x00".toList } DT_REG
        0o644)[FILE_TYPE]? = some '-' ∧
     (access_field { initial_globals with file_taccess := "drwxr-xr-x\x00".toList } DT_SOCK
        0o644)[FILE_TYPE]? = some 's' ∧
     (access_field { initial_globals with file_taccess := "drwxr-xr-x\x00".toList } DT_UNKNOWN
        0o644)[FILE_TYPE]? = some 'u') :=
  ⟨by decide, by decide,
   type_char_of_hint { initial_globals with file_taccess := "drwxr-xr-x\x00".toList } 0o644 'd'
     "rwxr-xr-x".toList (by decide) (by decide)⟩

/-- C5: for every device identifier that `stat` reports (below `2 ^ 32`) and
every size of type `long`, the size field of a character or block device is
the decimal major number, a comma, a blank and the decimal minor number,
the size field of any other file is the decimal representation of
`st_size`, and the text with its NUL fits the buffer `file_size`, so nothing
is cut off. -/
theorem size_field_complete (fstat : Stat) (hdev : fstat.st_rdev < 2 ^ 32)
    (hlo : -(2 ^ 63) ≤ fstat.st_size) (hhi : fstat.st_size < 2 ^ 63) :
    size_field fstat =
      (if S_ISCHR fstat.st_mode || S_ISBLK fstat.st_mode then
        (toString (major fstat.st_rdev)).toList ++ [',', ' '] ++
          (toString (minor fstat.st_rdev)).toList
       else (toString fstat.st_size).toList) ∧
    (size_field fstat).length + 1 ≤ sizeof_file_size := by
  have hsz : sizeof_file_size = 22 := by decide
  obtain ⟨hmaj, hmin⟩ := major_minor_bound fstat.st_rdev hdev
  have hmajd : fmt_d (as_int (major fstat.st_rdev)) = Nat.toDigits 10 (major fstat.st_rdev) :=
    fmt_d_as_int _ (by omega)
  have hmind : fmt_d (as_int (minor fstat.st_rdev)) = Nat.toDigits 10 (minor fstat.st_rdev) :=
    fmt_d_as_int _ (by omega)
  have hmajl := toDigits_length_le (major fstat.st_rdev) 4 (by decide) (by omega)
  have hminl := toDigits_length_le (minor fstat.st_rdev) 7 (by decide) (by omega)
  have hsize := put_size_complete initial_globals fstat.st_size hlo hhi
  have hsizel : (fmt_d fstat.st_size).length ≤ 20 := by
    have habs : fstat.st_size.natAbs < 10 ^ 19 := by omega
    have hlen := toDigits_length_le fstat.st_size.natAbs 19 (by decide) habs
    unfold fmt_d
    split
    · simp only [List.length_cons]; omega
    · omega
  unfold size_field
  by_cases hd : (S_ISCHR fstat.st_mode || S_ISBLK fstat.st_mode) = true
  · simp only [hd, if_true]
    have htext : (put_dev initial_globals fstat.st_rdev).file_size =
        Nat.toDigits 10 (major fstat.st_rdev) ++ [',', ' '] ++
          Nat.toDigits 10 (minor fstat.st_rdev) := by
      simp only [put_dev, snprintf, hmajd, hmind]
      apply List.take_of_length_le
      simp only [List.length_append, List.length_cons, List.length_nil, hsz]
      omega
    rw [htext]
    refine ⟨rfl, ?_⟩
    simp only [List.length_append, List.length_cons, List.length_nil, hsz]
    omega
  · simp only [hd, Bool.false_eq_true, if_false]
    rw [hsize]
    refine ⟨fmt_d_eq_toString _, ?_⟩
    rw [hsz]
    omega

/-- Witness of C5: the device 1, 3 and a regular file of 1234 bytes. -/
theorem size_field_complete_witness :
    (size_field (sample_device 1 3) = "1, 3".toList ∧
      (size_field (sample_device 1 3)).length + 1 ≤ sizeof_file_size) ∧
    (size_field { sample_stat with st_size := 1234 } = "1234".toList ∧
      (size_field { sample_stat with st_size := 1234 }).length + 1 ≤ sizeof_file_size) :=
  ⟨size_field_complete (sample_device 1 3) (by decide) (by decide) (by decide),
   size_field_complete { sample_stat with st_size := 1234 } (by decide) (by decide)
     (by decide)⟩

/-- Beyond the identifiers that `stat` reports, the text of `put_dev` can be
longer than `file_size`: for major and minor number 1000000000 the last
digit would be cut off. -/
theorem device_size_beyond_range :
    ¬ (makedev 1000000000 1000000000 < 2 ^ 32) ∧
    size_field (sample_device 1000000000 1000000000) = "1000000000, 100000000".toList := by
  decide

/-- C9, the code at the failing input: the link count 1000000000 has ten
digits, `file_nlink` has `UINT_BUFSIZE_BOUND = 10` bytes and so holds nine,
and the last digit is cut off; the link count 4294967295 is printed through
`%d` as `-1`. -/
theorem nlink_cut_off :
    sizeof_file_nlink = 10 ∧
    nlink_field 1000000000 = "100000000".toList ∧
    nlink_field 1000000000 ≠ "1000000000".toList ∧
    nlink_field 4294967295 = "-1".toList ∧
    print_dir true ['.'] (some [sample_entry "n" DT_REG (sample_links 1000000000)])
        initial_globals =
      "-rw-r--r-- 100000000\troot\troot\t0\tThu Jan  1 00:00:00 1970 n\n".toList := by
  decide

/-- C6, counterexample: the line of a regular file `a` has a blank, not a
tab, between the time and the name. -/
theorem long_line_time_name_blank :
    print_dir true ['.'] (some [sample_entry "a" DT_REG sample_stat]) initial_globals =
      "-rw-r--r-- 1\troot\troot\t0\tThu Jan  1 00:00:00 1970 a\n".toList ∧
    print_dir true ['.'] (some [sample_entry "a" DT_REG sample_stat]) initial_globals ≠
      "-rw-r--r-- 1\troot\troot\t0\tThu Jan  1 00:00:00 1970\ta\n".toList := by
  decide

/-- C6, amended: for a visible entry whose allocation and lookups succeed
and which has no resolved link target, the line written is access field,
blank, link count, tab, owner, tab, group, tab, size field, tab, time, blank,
name, newline; the enumeration then continues with the next entry.  The time
field is what `file_time` holds after `strftime`. -/
theorem long_line_format (operated_dir : List Char) (g : Globals) (e : Entry)
    (rest : List Entry) (junk : Nat → Char) (fstat : Stat) (owner group time : List Char)
    (hvis : FILE_IGNORED e.d_name = 0)
    (hheap : e.heap = some junk) (hstat : e.stat = some fstat)
    (hpe : e.pw_errno = 0) (hpw : e.pw_name = some owner)
    (hge : e.gr_errno = 0) (hgr : e.gr_name = some group) (htm : e.tm = some time)
    (hnolink : link_target e fstat = none) :
    readdir_loop true operated_dir (e :: rest) g =
      (access_field g e.d_type fstat.st_mode ++ [' '] ++ nlink_field fstat.st_nlink ++ ['\t'] ++
        snprintf sizeof_file_owner owner ++ ['\t'] ++ snprintf sizeof_file_group group ++
        ['\t'] ++ size_field fstat ++ ['\t'] ++ strftime g.file_time sizeof_file_time time ++
        [' '] ++ e.d_name ++ ['\n']) ++
      readdir_loop true operated_dir rest (file_record g e fstat owner group time) := by
  have hbody := long_entry_ok operated_dir g e junk fstat owner group time hheap hstat hpe hpw
    hge hgr htm
  rw [hnolink] at hbody
  rw [readdir_loop]
  simp only [hvis, ne_eq, not_true_eq_false, if_false, Bool.not_true, Bool.false_eq_true, hbody]
  simp [printf_long, file_record, access_field]

/-- Witness of C6: the line of a regular file `a`. -/
theorem long_line_format_witness :
    readdir_loop true ['.'] [sample_entry "a" DT_REG sample_stat] initial_globals =
      (access_field initial_globals DT_REG sample_stat.st_mode ++ [' '] ++
        nlink_field sample_stat.st_nlink ++ ['\t'] ++
        snprintf sizeof_file_owner "root".toList ++ ['\t'] ++
        snprintf sizeof_file_group "root".toList ++
        ['\t'] ++ size_field sample_stat ++ ['\t'] ++
        strftime initial_globals.file_time sizeof_file_time "Thu Jan  1 00:00:00 1970".toList ++
        [' '] ++ ['a'] ++ ['\n']) ++
      readdir_loop true ['.'] []
        (file_record initial_globals (sample_entry "a" DT_REG sample_stat) sample_stat
          "root".toList "root".toList "Thu Jan  1 00:00:00 1970".toList) :=
  long_line_format ['.'] initial_globals (sample_entry "a" DT_REG sample_stat) []
    (fun _ => 'x') sample_stat "root".toList "root".toList "Thu Jan  1 00:00:00 1970".toList
    (by decide) rfl rfl rfl rfl rfl rfl rfl (by decide)

/-- For a visible entry that the code takes for a symbolic link (by the mode
that `stat` answers or by the type hint) and whose allocation and lookups
succeed, the line ends with the
name, `" -> "` and the resolved path when `realpath` succeeds, and with the
name alone when it fails; in both cases the enumeration continues with the
next entry. -/
theorem symlink_suffix (operated_dir : List Char) (g : Globals) (e : Entry)
    (rest : List Entry) (junk : Nat → Char) (fstat : Stat) (owner group time : List Char)
    (target : Option (List Char))
    (hvis : FILE_IGNORED e.d_name = 0)
    (hheap : e.heap = some junk) (hstat : e.stat = some fstat)
    (hpe : e.pw_errno = 0) (hpw : e.pw_name = some owner)
    (hge : e.gr_errno = 0) (hgr : e.gr_name = some group) (htm : e.tm = some time)
    (hlink : (S_ISLNK fstat.st_mode || e.d_type == DT_LNK) = true)
    (hres : e.resolved = target) :
    readdir_loop true operated_dir (e :: rest) g =
      line_fields (file_record g e fstat owner group time) ++ e.d_name ++
        (match target with
         | some path => [' ', '-', '>', ' '] ++ path
         | none => []) ++ ['\n'] ++
      readdir_loop true operated_dir rest (file_record g e fstat owner group time) := by
  have hbody := long_entry_ok operated_dir g e junk fstat owner group time hheap hstat hpe hpw
    hge hgr htm
  have htarget : link_target e fstat = target := by
    simp only [link_target, hlink, if_true, hres]
  rw [readdir_loop]
  simp only [hvis, ne_eq, not_true_eq_false, if_false, Bool.not_true, Bool.false_eq_true, hbody]
  rw [printf_long_fields, htarget]
  cases target with
  | none => simp
  | some path => simp [file_record, htarget]

/-- A link `l` with the hint `DT_LNK` that resolves to `/x`, and the same
link when `realpath` fails. -/
theorem symlink_suffix_hinted :
    (readdir_loop true ['.'] [sample_link (some ['/', 'x'])] initial_globals =
      line_fields (file_record initial_globals (sample_link (some ['/', 'x'])) sample_stat
        "root".toList "root".toList "Thu Jan  1 00:00:00 1970".toList) ++ ['l'] ++
        ([' ', '-', '>', ' '] ++ ['/', 'x']) ++ ['\n'] ++
      readdir_loop true ['.'] [] (file_record initial_globals (sample_link (some ['/', 'x']))
        sample_stat "root".toList "root".toList "Thu Jan  1 00:00:00 1970".toList)) ∧
    (readdir_loop true ['.'] [sample_link none] initial_globals =
      line_fields (file_record initial_globals (sample_link none) sample_stat
        "root".toList "root".toList "Thu Jan  1 00:00:00 1970".toList) ++ ['l'] ++
        [] ++ ['\n'] ++
      readdir_loop true ['.'] [] (file_record initial_globals (sample_link none)
        sample_stat "root".toList "root".toList "Thu Jan  1 00:00:00 1970".toList)) ∧
    readdir_loop true ['.'] [sample_link (some ['/', 'x'])] initial_globals =
      "lrw-r--r-- 1\troot\troot\t0\tThu Jan  1 00:00:00 1970 l -> /x\n".toList ∧
    readdir_loop true ['.'] [sample_link none] initial_globals =
      "lrw-r--r-- 1\troot\troot\t0\tThu Jan  1 00:00:00 1970 l\n".toList :=
  ⟨symlink_suffix ['.'] initial_globals (sample_link (some ['/', 'x'])) [] (fun _ => 'x')
      sample_stat "root".toList "root".toList "Thu Jan  1 00:00:00 1970".toList
      (some ['/', 'x']) (by decide) rfl rfl rfl rfl rfl rfl rfl (by decide) rfl,
   symlink_suffix ['.'] initial_globals (sample_link none) [] (fun _ => 'x')
      sample_stat "root".toList "root".toList "Thu Jan  1 00:00:00 1970".toList
      none (by decide) rfl rfl rfl rfl rfl rfl rfl (by decide) rfl,
   by decide, by decide⟩

/-- C8, the code at the failing input: a symbolic link on a file system
whose `readdir` answers `DT_UNKNOWN`.  The mode comes from `stat`, which
follows the link, so `S_ISLNK` does not hold, `realpath` is never asked, and
the line ends with the name although the link resolves to `/x`. -/
theorem symlink_without_hint :
    (S_ISLNK sample_stat.st_mode || sample_link_unhinted.d_type == DT_LNK) = false ∧
    sample_link_unhinted.resolved = some ['/', 'x'] ∧
    print_dir true ['.'] (some [sample_link_unhinted]) initial_globals =
      "urw-r--r-- 1\troot\troot\t0\tThu Jan  1 00:00:00 1970 l\n".toList ∧
    print_dir true ['.'] (some [sample_link_unhinted]) initial_globals ≠
      "urw-r--r-- 1\troot\troot\t0\tThu Jan  1 00:00:00 1970 l -> /x\n".toList := by
  decide

/-- C7, counterexample: a failed allocation in `create_filename` ends the
listing although no lookup fails (nothing is written for `a` and `c`); and
when the time text does not fit `file_time`, so that `strftime` fails, the
entry `b` is written with the time of `a` and the listing goes on with
`c`. -/
theorem fail_fast_other_causes :
    (lookups_ok sample_no_memory = true ∧
     lookups_ok (sample_entry "c" DT_REG sample_stat) = true ∧
     print_dir true ['.'] (some [sample_no_memory, sample_entry "c" DT_REG sample_stat])
        initial_globals = []) ∧
    (¬ ("Sat Jan  1 00:00:00 10000".toList.length < sizeof_file_time) ∧
     print_dir true ['.']
        (some [sample_entry "a" DT_REG sample_stat, sample_far_future,
               sample_entry "c" DT_REG sample_stat]) initial_globals =
      ("-rw-r--r-- 1\troot\troot\t0\tThu Jan  1 00:00:00 1970 a\n" ++
       "-rw-r--r-- 1\troot\troot\t0\tThu Jan  1 00:00:00 1970 b\n" ++
       "-rw-r--r-- 1\troot\troot\t0\tThu Jan  1 00:00:00 1970 c\n").toList) := by
  decide

/-- C7, amended: in long mode, when every time text fits `file_time`,
whatever the entries and the outcomes of the allocation and of the lookups,
`print_dir` writes exactly the lines of the visible entries that precede the
first visible entry whose allocation, stat call, owner lookup, group lookup
or time conversion fails, each line in the long format, and nothing for
that entry or any later one. -/
theorem long_mode_fail_fast (operated_dir : List Char) (entries : List Entry) (g : Globals)
    (hfit : ∀ e ∈ entries, ∀ text, e.tm = some text → text.length < sizeof_file_time) :
    print_dir true operated_dir (some entries) g = (fail_fast_lines entries g).flatten ∧
    (fail_fast_lines entries g).length =
      ((entries.filter visible).takeWhile (fun e => (answers e).isSome)).length := by
  obtain ⟨h1, h2⟩ := readdir_loop_fail_fast operated_dir entries g hfit
  refine ⟨?_, h2⟩
  simp [print_dir, h1]

/-- Witness of C7: of the entries `a`, `.h`, `b`, `c`, where `stat` fails for
`b`, only the line of `a` is written. -/
theorem long_mode_fail_fast_witness :
    (print_dir true ['.']
        (some [sample_entry "a" DT_REG sample_stat, sample_entry ".h" DT_REG sample_stat,
               sample_unreadable, sample_entry "c" DT_REG sample_stat]) initial_globals =
      (fail_fast_lines
        [sample_entry "a" DT_REG sample_stat, sample_entry ".h" DT_REG sample_stat,
         sample_unreadable, sample_entry "c" DT_REG sample_stat] initial_globals).flatten ∧
     (fail_fast_lines
        [sample_entry "a" DT_REG sample_stat, sample_entry ".h" DT_REG sample_stat,
         sample_unreadable, sample_entry "c" DT_REG sample_stat] initial_globals).length =
      (([sample_entry "a" DT_REG sample_stat, sample_entry ".h" DT_REG sample_stat,
         sample_unreadable, sample_entry "c" DT_REG sample_stat].filter visible).takeWhile
        (fun e => (answers e).isSome)).length) ∧
    fail_fast_lines
        [sample_entry "a" DT_REG sample_stat, sample_entry ".h" DT_REG sample_stat,
         sample_unreadable, sample_entry "c" DT_REG sample_stat] initial_globals =
      ["-rw-r--r-- 1\troot\troot\t0\tThu Jan  1 00:00:00 1970 a\n".toList] :=
  ⟨long_mode_fail_fast ['.']
      [sample_entry "a" DT_REG sample_stat, sample_entry ".h" DT_REG sample_stat,
       sample_unreadable, sample_entry "c" DT_REG sample_stat] initial_globals
      (by
        intro e he text htext
        simp only [List.mem_cons, List.mem_singleton, List.not_mem_nil, or_false] at he
        rcases he with rfl | rfl | rfl | rfl <;>
          simp only [sample_entry, sample_unreadable, Option.some.injEq] at htext <;>
          subst htext <;> decide),
   by decide⟩

/-- C10: when the allocation succeeds, `create_filename(path, name)` returns
`path` followed by `name` if `path` is empty or ends in `'/'`, and `path`,
one `'/'`, `name` otherwise; the string has the length computed for the
allocation, `strlen(path) + strlen(name)` plus 1 when a separator is
inserted, and the buffer has one more byte for the NUL. -/
theorem create_filename_joins (junk : Nat → Char) (path name : List Char)
    (hpath : NUL ∉ path) (hname : NUL ∉ name) :
    ∃ str, create_filename (some junk) path name = some str ∧
      cstr str = (if path = [] ∨ path.getLast? = some '/' then path ++ name
                  else path ++ '/' :: name) ∧
      strlen (cstr str) = strlen path + strlen name +
        (if path = [] ∨ path.getLast? = some '/' then 0 else 1) ∧
      str.length = strlen (cstr str) + 1 := by
  refine ⟨_, create_filename_buffer junk path name, ?_⟩
  by_cases hsep : path = [] ∨ path.getLast? = some '/'
  · simp only [if_pos hsep]
    have hno : NUL ∉ path ++ name := by
      simp only [List.mem_append, not_or]; exact ⟨hpath, hname⟩
    have hc : cstr (path ++ name ++ [NUL]) = path ++ name := cstr_append_nul _ [] hno
    rw [hc]
    simp [strlen]
    omega
  · simp only [if_neg hsep]
    have hno : NUL ∉ path ++ '/' :: name := by
      simp only [List.mem_append, List.mem_cons, not_or]
      exact ⟨hpath, by decide, hname⟩
    have hc : cstr (path ++ '/' :: name ++ [NUL]) = path ++ '/' :: name := by
      have := cstr_append_nul (path ++ '/' :: name) [] hno
      simpa using this
    rw [hc]
    simp [strlen]
    omega

/-- Witness of C10: `"dir"` and `"a"` give `"dir/a"`. -/
theorem create_filename_joins_witness :
    NUL ∉ "dir".toList ∧ NUL ∉ "a".toList ∧
    ∃ str, create_filename (some fun _ => 'x') "dir".toList "a".toList = some str ∧
      cstr str = (if "dir".toList = [] ∨ "dir".toList.getLast? = some '/'
                  then "dir".toList ++ "a".toList else "dir".toList ++ '/' :: "a".toList) ∧
      strlen (cstr str) = strlen "dir".toList + strlen "a".toList +
        (if "dir".toList = [] ∨ "dir".toList.getLast? = some '/' then 0 else 1) ∧
      str.length = strlen (cstr str) + 1 :=
  ⟨by decide, by decide,
   create_filename_joins (fun _ => 'x') "dir".toList "a".toList (by decide) (by decide)⟩

end Ls
